import Mathlib

/-!
Shallow embedding of the team-orchestration core of the DataWise AI
repository: agent selectors (`src/team/selector.py`), termination
conditions (`src/team/termination_conditions.py`), handoff rules
(`src/team/handoffs.py`) and the resource-cleanup control flow of
`run_analysis` (`src/main.py`), together with theorems settling the
spec claims about them.
-/

set_option autoImplicit false

namespace DataWise

/-- An agent is identified by its unique name (the `.name` attribute used by
the selectors and rosters). -/
structure Agent where
  name : String
deriving DecidableEq, Repr

/-- A chat message: `isAgent` records whether the Python object is an
`AgentMessage` (`isinstance(msg, AgentMessage)`), `content` its text. -/
structure Message where
  isAgent : Bool
  content : String
deriving DecidableEq, Repr

/-- Python's `content.lower()` (per-character lowercasing; the keyword
matching below only involves ASCII). -/
def strLower (s : String) : String :=
  String.mk (s.data.map Char.toLower)

/-- Does the character list `t` start with the pattern `p`? -/
def startsWithCh : List Char → List Char → Bool
  | [], _ => true
  | _ :: _, [] => false
  | p :: ps, t :: ts => (p = t) && startsWithCh ps ts

/-- Does the character list `t` contain the pattern `p` as a contiguous
run?  Embeds Python's substring test `p in t`. -/
def containsCh (p : List Char) : List Char → Bool
  | [] => startsWithCh p []
  | t :: ts => startsWithCh p (t :: ts) || containsCh p ts

/-- Python's `pat in s` on strings: `pat` occurs contiguously in `s`. -/
def strContains (s pat : String) : Bool :=
  containsCh pat.toList s.toList

/-- Python's `any(keyword in content for keyword in kws)`. -/
def anyKeyword (content : String) (kws : List String) : Bool :=
  kws.any fun k => strContains content k

/-- `routing_keywords['visualization']` from `CustomAgentSelector.__init__`. -/
def vizKeywords : List String :=
  ["plot", "chart", "graph", "visualize", "visualization", "show me"]

/-- `routing_keywords['statistics']` from `CustomAgentSelector.__init__`. -/
def statsKeywords : List String :=
  ["correlation", "regression", "t-test", "anova", "mean", "median", "std", "statistical"]

/-- `routing_keywords['code_executor']` from `CustomAgentSelector.__init__`. -/
def codeExecKeywords : List String :=
  ["run", "execute", "error", "traceback", "install"]

/-- `routing_keywords['data_analyzer']` from `CustomAgentSelector.__init__`. -/
def dataAnalyzerKeywords : List String :=
  ["analyze", "data", "dataset", "csv", "load", "read"]

/-- `CustomAgentSelector._find_agent_by_name`: first agent in the list with
the given name, else `none`. -/
def findAgentByName : List Agent → String → Option Agent
  | [], _ => none
  | a :: rest, name => if a.name = name then some a else findAgentByName rest name

/-- `CustomAgentSelector.select_next_agent`: keyword routing over the
lower-cased content of the last message, topics checked in the fixed order
visualization, statistics, code execution, data analysis; `none` models the
Python `None` ("no preference"). -/
def CustomAgentSelector.selectNextAgent (agents : List Agent) (lastMessage : Message) :
    Option Agent :=
  if !lastMessage.isAgent then none
  else
    let content := strLower lastMessage.content
    if anyKeyword content vizKeywords then
      findAgentByName agents "Visualization_Specialist"
    else if anyKeyword content statsKeywords then
      findAgentByName agents "Statistics_Analyst"
    else if anyKeyword content codeExecKeywords then
      findAgentByName agents "Code_Executor"
    else if anyKeyword content dataAnalyzerKeywords then
      findAgentByName agents "Data_Analyzer"
    else none

/-- `RoundRobinSelector.select_next_agent`.  The selector state is the
integer `current_index`; the call evaluates `agents[current_index % len(agents)]`
and then increments the index.  On an empty roster the Python indexing raises
`ZeroDivisionError` (`% 0`) before the increment, modelled by `none`. -/
def RoundRobinSelector.selectNextAgent (agents : List Agent) (currentIndex : Nat) :
    Option (Agent × Nat) :=
  match agents[currentIndex % agents.length]? with
  | none => none
  | some a => some (a, currentIndex + 1)

/-- Cursor value of a `RoundRobinSelector` before its `k`-th call (0-indexed)
on a fixed roster, starting from the initial state `current_index = 0`.  A
failing call (empty roster) leaves the cursor unchanged, as the Python
exception is raised before the increment. -/
def rrCursor (agents : List Agent) : Nat → Nat
  | 0 => 0
  | k + 1 =>
    match RoundRobinSelector.selectNextAgent agents (rrCursor agents k) with
    | some (_, c) => c
    | none => rrCursor agents k

/-- Result of the `k`-th call (0-indexed) to a fresh `RoundRobinSelector`
on a fixed roster. -/
def rrCall (agents : List Agent) (k : Nat) : Option Agent :=
  (RoundRobinSelector.selectNextAgent agents (rrCursor agents k)).map Prod.fst

/-- One rule of `AgentHandoff.handoff_rules`: the `'next'` list and the
`'conditions'` dict (as an insertion-ordered association list). -/
structure HandoffRule where
  next : List String
  conditions : List (String × String)
deriving DecidableEq, Repr

/-- The `handoff_rules` table built in `AgentHandoff.__init__`, in source
order. -/
def handoffRules : List (String × HandoffRule) :=
  [("Data_Analyzer",
     { next := ["Code_Executor"],
       conditions := [("has_code", "Code_Executor"),
                      ("needs_stats", "Statistics_Analyst"),
                      ("needs_viz", "Visualization_Specialist")] }),
   ("Code_Executor",
     { next := ["Data_Analyzer"],
       conditions := [("error", "Data_Analyzer"),
                      ("success", "Data_Analyzer")] }),
   ("Visualization_Specialist",
     { next := ["Code_Executor"],
       conditions := [("ready", "Code_Executor")] }),
   ("Statistics_Analyst",
     { next := ["Code_Executor"],
       conditions := [("ready", "Code_Executor")] })]

/-- Dictionary lookup `table[key]` / `key in table` over the rules table. -/
def assocLookup : List (String × HandoffRule) → String → Option HandoffRule
  | [], _ => none
  | (k, v) :: rest, key => if k = key then some v else assocLookup rest key

/-- A handoff context is the Python `context` dict restricted to its
truthiness: each named flag maps to a boolean. -/
abbrev HContext := List (String × Bool)

/-- `context.get(condition)` followed by Python truthiness: an absent key is
falsy. -/
def ctxGet : HContext → String → Bool
  | [], _ => false
  | (k, v) :: rest, key => if k = key then v else ctxGet rest key

/-- The `for condition, next_agent in rules['conditions'].items()` loop of
`get_next_agent`: the target of the first condition whose flag is truthy. -/
def findCondition : List (String × String) → HContext → Option String
  | [], _ => none
  | (cond, tgt) :: rest, ctx =>
    if ctxGet ctx cond then some tgt else findCondition rest ctx

/-- `AgentHandoff.get_next_agent`.  `context = none` models Python
`context=None`; `some []` an empty dict, which is falsy and so skips the
conditions loop just as `None` does. -/
def getNextAgent (currentAgent : String) (context : Option HContext) : Option String :=
  match assocLookup handoffRules currentAgent with
  | none => none
  | some rules =>
    let conditional : Option String :=
      match context with
      | none => none
      | some ctx => if ctx.isEmpty then none else findCondition rules.conditions ctx
    match conditional with
    | some t => some t
    | none => rules.next.head?

/-- The `for _ in range(length - 1)` loop body of `get_handoff_chain`:
`fuel` is the number of remaining iterations. -/
def chainAux (currentAgent : String) : Nat → List String
  | 0 => []
  | fuel + 1 =>
    match getNextAgent currentAgent none with
    | some nxt => nxt :: chainAux nxt fuel
    | none => []

/-- `AgentHandoff.get_handoff_chain`: starts from `[start_agent]` and extends
by repeated default handoffs for `length - 1` steps, stopping early when a
lookup yields no next agent. -/
def getHandoffChain (startAgent : String) (length : Nat) : List String :=
  startAgent :: chainAux startAgent (length - 1)

/-- `error_keywords` from `ErrorTermination.__init__`. -/
def errorKeywords : List String :=
  ["error", "exception", "failed", "traceback"]

/-- Whether one call to `ErrorTermination.__call__` on the given history
increments the counter: the history is non-empty, its last message is an
`AgentMessage`, and the lower-cased content contains an error keyword. -/
def callMatches (messages : List Message) : Bool :=
  match messages.getLast? with
  | none => false
  | some last => last.isAgent && anyKeyword (strLower last.content) errorKeywords

/-- `ErrorTermination.__call__`: takes the configured `max_errors`, the
current `error_count` and the message history; returns the boolean result
and the updated `error_count`. -/
def ErrorTermination.call (maxErrors errorCount : Nat) (messages : List Message) :
    Bool × Nat :=
  match messages.getLast? with
  | none => (false, errorCount)
  | some last =>
    if last.isAgent then
      if anyKeyword (strLower last.content) errorKeywords then
        let c := errorCount + 1
        if maxErrors ≤ c then (true, c) else (false, c)
      else (false, errorCount)
    else (false, errorCount)

/-- Results of a sequence of calls to one `ErrorTermination` instance,
threading the `error_count` state; `inputs` lists the history passed to
each successive call. -/
def errTrace (maxErrors errorCount : Nat) : List (List Message) → List Bool
  | [] => []
  | m :: ms =>
    let r := ErrorTermination.call maxErrors errorCount m
    r.1 :: errTrace maxErrors r.2 ms

/-- The `error_count` after a sequence of calls to one `ErrorTermination`
instance starting from count `errorCount`. -/
def errCountAfter (maxErrors errorCount : Nat) : List (List Message) → Nat
  | [] => errorCount
  | m :: ms => errCountAfter maxErrors (ErrorTermination.call maxErrors errorCount m).2 ms

/-- Number of counter-incrementing calls in a sequence of call inputs. -/
def matchCount (inputs : List (List Message)) : Nat :=
  (inputs.filter callMatches).length

/-- `TimeoutTermination.__call__`: sets `round_count` to the history length
and returns whether it has reached `max_rounds`. -/
def TimeoutTermination.call (maxRounds : Nat) (messages : List Message) : Bool × Nat :=
  (decide (maxRounds ≤ messages.length), messages.length)

/-- `StuckConversationTermination.__call__` with repetition threshold
`threshold`.  `messages[-threshold:]` is the whole list when `threshold = 0`
(Python negative-zero slice); `contents[0]` on an empty `contents` raises
`IndexError`, modelled by `none`. -/
def StuckConversationTermination.call (threshold : Nat) (messages : List Message) :
    Option Bool :=
  if messages.length < threshold then some false
  else
    let recent := if threshold = 0 then messages
                  else messages.drop (messages.length - threshold)
    let contents := (recent.filter fun m => m.isAgent).map fun m => m.content
    if threshold ≤ contents.length then
      match contents with
      | [] => none
      | c0 :: _ => some (decide (threshold ≤ (contents.filter fun c => c = c0).length))
    else some false

/-- Externally visible resource effects of `run_analysis` in `src/main.py`. -/
inductive Effect where
  | startDocker
  | stopDocker
  | endTask (status : String)
deriving DecidableEq, Repr

/-- Possible outcomes of the `try` body of `run_analysis` (starting the
container, the `team.run_stream` session loop, metrics reporting). -/
inductive LoopBehavior where
  /-- The session loop runs to completion and the summary is printed. -/
  | completes
  /-- `KeyboardInterrupt` is raised during the loop. -/
  | raisesKeyboardInterrupt
  /-- An `Exception` is raised inside the `try` body, e.g. an agent
  invocation raising mid-session or `start_docker_container` failing. -/
  | raisesException
  /-- The task is cancelled externally: a `BaseException` that no `except`
  clause of `run_analysis` catches. -/
  | cancelled
deriving DecidableEq, Repr

/-- Exception classes distinguished by the `except` clauses of
`run_analysis`, plus uncaught base exceptions (cancellation). -/
inductive PyExc where
  | keyboardInterrupt
  | exception
  | cancelled
deriving DecidableEq, Repr

/-- Effects of the `try` body of `run_analysis` and the exception it raises,
if any.  `start_docker_container` is awaited first; when the loop raises, the
status-reporting effects after the loop do not run. -/
def tryBody : LoopBehavior → List Effect × Option PyExc
  | .completes => ([.startDocker, .endTask "success"], none)
  | .raisesKeyboardInterrupt => ([.startDocker], some .keyboardInterrupt)
  | .raisesException => ([.startDocker], some .exception)
  | .cancelled => ([.startDocker], some .cancelled)

/-- `run_analysis` after the `except` clauses and the `finally` block:
`except KeyboardInterrupt` and `except Exception` record a task end and
swallow the exception; an uncaught exception propagates; the `finally`
block awaits `stop_docker_container` on every path.  Returns the effect
trace and the exception escaping the function, if any. -/
def runAnalysis (loop : LoopBehavior) : List Effect × Option PyExc :=
  let tryRes := tryBody loop
  let afterExcept : List Effect × Option PyExc :=
    match tryRes.2 with
    | none => (tryRes.1, none)
    | some .keyboardInterrupt => (tryRes.1 ++ [.endTask "interrupted"], none)
    | some .exception => (tryRes.1 ++ [.endTask "error"], none)
    | some .cancelled => (tryRes.1, some .cancelled)
  (afterExcept.1 ++ [.stopDocker], afterExcept.2)

lemma rr_step (agents : List Agent) (h : agents ≠ []) (c : Nat) :
    RoundRobinSelector.selectNextAgent agents c =
      some (agents.get ⟨c % agents.length, Nat.mod_lt c (List.length_pos.mpr h)⟩, c + 1) := by
  have hlt : c % agents.length < agents.length := Nat.mod_lt c (List.length_pos.mpr h)
  simp [RoundRobinSelector.selectNextAgent, List.getElem?_eq_getElem hlt,
    List.get_eq_getElem]

lemma rrCursor_eq (agents : List Agent) (h : agents ≠ []) : ∀ k, rrCursor agents k = k := by
  intro k
  induction k with
  | zero => rfl
  | succ n ih => unfold rrCursor; rw [ih, rr_step agents h]

/-- C5: over the default rule set, `get_handoff_chain('Data_Analyzer', 5)`
returns exactly the alternating list of length 5, not a prematurely
terminated chain. -/
theorem handoffChain_dataAnalyzer_five :
    getHandoffChain "Data_Analyzer" 5 =
      ["Data_Analyzer", "Code_Executor", "Data_Analyzer", "Code_Executor",
       "Data_Analyzer"] := by
  decide

/-- C6: the max-message rule `TimeoutTermination` returns true if and only
if the history length has reached `max_rounds`, for every history regardless
of message contents or kinds. -/
theorem timeoutTermination_spec (maxRounds : Nat) (messages : List Message) :
    (TimeoutTermination.call maxRounds messages).1 = true ↔
      maxRounds ≤ messages.length := by
  simp [TimeoutTermination.call]

/-- Witness for C6 at a concrete history of length 2 with `max_rounds = 2`. -/
theorem timeoutTermination_spec_witness :
    (TimeoutTermination.call 2 [⟨true, "a"⟩, ⟨false, "b"⟩]).1 = true :=
  (timeoutTermination_spec 2 [⟨true, "a"⟩, ⟨false, "b"⟩]).mpr (by decide)

/-- C8: on every exit path of the `run_analysis` session loop — normal
completion, `KeyboardInterrupt`, an exception raised mid-session (e.g. by an
agent invocation), or external cancellation — `stop_docker_container` is
invoked exactly once, and it is the last resource effect before the session
ends. -/
theorem runAnalysis_stopsDockerOnce (loop : LoopBehavior) :
    (runAnalysis loop).1.count Effect.stopDocker = 1 ∧
      (runAnalysis loop).1.getLast? = some Effect.stopDocker := by
  cases loop <;> exact ⟨rfl, rfl⟩

/-- C1: for a non-empty roster of size `N`, the `k`-th call (0-indexed) to
`RoundRobinSelector.select_next_agent` returns `roster[k mod N]`, and the
internal cursor increases by exactly one on every call. -/
theorem roundRobin_spec (agents : List Agent) (h : agents ≠ []) (k : Nat) :
    rrCall agents k =
      some (agents.get ⟨k % agents.length, Nat.mod_lt k (List.length_pos.mpr h)⟩) ∧
    rrCursor agents (k + 1) = rrCursor agents k + 1 := by
  constructor
  · unfold rrCall
    rw [rrCursor_eq agents h, rr_step agents h]
    rfl
  · rw [rrCursor_eq agents h, rrCursor_eq agents h]

/-- Witness for C1: the fourth call on a two-agent roster returns the agent
at index `3 % 2 = 1`, and the cursor steps from 3 to 4. -/
theorem roundRobin_spec_witness :
    rrCall [⟨"Data_Analyzer"⟩, ⟨"Code_Executor"⟩] 3 = some ⟨"Code_Executor"⟩ ∧
      rrCursor [⟨"Data_Analyzer"⟩, ⟨"Code_Executor"⟩] 4 =
        rrCursor [⟨"Data_Analyzer"⟩, ⟨"Code_Executor"⟩] 3 + 1 := by
  have h := roundRobin_spec [⟨"Data_Analyzer"⟩, ⟨"Code_Executor"⟩] (by decide) 3
  exact ⟨h.1.trans (by decide), h.2⟩

/-- C9 counterexample: on the empty roster the round-robin selector does not
return an agent — `agents[self.current_index % len(agents)]` raises
`ZeroDivisionError` in Python (`% 0`), modelled by `none`. -/
theorem roundRobin_empty_fails :
    RoundRobinSelector.selectNextAgent ([] : List Agent) 0 = none := rfl

/-- C9 (amended): for every non-empty roster and after any number of prior
calls, a call to `RoundRobinSelector.select_next_agent` returns an agent
without raising an exception, wrapping indefinitely; on an empty roster the
call raises `ZeroDivisionError`. -/
theorem roundRobin_nonempty_total (agents : List Agent) (h : agents ≠ []) (k : Nat) :
    ∃ a n, RoundRobinSelector.selectNextAgent agents (rrCursor agents k) = some (a, n) :=
  ⟨_, _, rr_step agents h (rrCursor agents k)⟩

/-- Witness for the amended C9: the eighth call on a singleton roster
returns an agent. -/
theorem roundRobin_nonempty_total_witness :
    ∃ a n, RoundRobinSelector.selectNextAgent [⟨"Data_Analyzer"⟩]
      (rrCursor [⟨"Data_Analyzer"⟩] 7) = some (a, n) :=
  roundRobin_nonempty_total [⟨"Data_Analyzer"⟩] (by decide) 7

lemma findCondition_first (ctx : HContext) :
    ∀ (conds : List (String × String)) (i : Nat) (hi : i < conds.length),
      ctxGet ctx (conds.get ⟨i, hi⟩).1 = true →
      (∀ j (hj : j < i), ctxGet ctx (conds.get ⟨j, Nat.lt_trans hj hi⟩).1 = false) →
      findCondition conds ctx = some (conds.get ⟨i, hi⟩).2 := by
  intro conds
  induction conds with
  | nil => intro i hi; exact absurd hi (Nat.not_lt_zero i)
  | cons head rest ih =>
    intro i hi htrue hprev
    obtain ⟨c, t⟩ := head
    match i with
    | 0 => simp only [List.get] at htrue ⊢; simp [findCondition, htrue]
    | i + 1 =>
      have h0 : ctxGet ctx c = false := hprev 0 (Nat.succ_pos i)
      simp only [List.get] at htrue ⊢
      simp only [findCondition, h0, Bool.false_eq_true, if_false]
      exact ih i (Nat.lt_of_succ_lt_succ hi) htrue
        (fun j hj => hprev (j + 1) (Nat.succ_lt_succ hj))

lemma findCondition_none (ctx : HContext) :
    ∀ (conds : List (String × String)),
      (∀ j (hj : j < conds.length), ctxGet ctx (conds.get ⟨j, hj⟩).1 = false) →
      findCondition conds ctx = none := by
  intro conds
  induction conds with
  | nil => intro; rfl
  | cons head rest ih =>
    intro hall
    obtain ⟨c, t⟩ := head
    have h0 : ctxGet ctx c = false := hall 0 (Nat.succ_pos _)
    simp only [findCondition, h0, Bool.false_eq_true, if_false]
    exact ih fun j hj => hall (j + 1) (Nat.succ_lt_succ hj)

lemma isEmpty_false_of_ne_nil {α : Type} {l : List α} (h : l ≠ []) :
    l.isEmpty = false := by
  cases l with
  | nil => exact absurd rfl h
  | cons a as => rfl

/-- C7: `get_next_agent` returns the target of the first named condition of
the current agent's rule whose flag is truthy in the context; with no
matching flag, an empty context, or no context, it returns the first entry
of the rule's default `next` list; and it returns `None` for an agent with
no rule in the table. -/
theorem getNextAgent_spec :
    (∀ (currentAgent : String) (context : Option HContext),
       assocLookup handoffRules currentAgent = none →
       getNextAgent currentAgent context = none) ∧
    (∀ (currentAgent : String) (rule : HandoffRule) (ctx : HContext),
       assocLookup handoffRules currentAgent = some rule → ctx ≠ [] →
       ∀ i (hi : i < rule.conditions.length),
         ctxGet ctx (rule.conditions.get ⟨i, hi⟩).1 = true →
         (∀ j (hj : j < i),
           ctxGet ctx (rule.conditions.get ⟨j, Nat.lt_trans hj hi⟩).1 = false) →
         getNextAgent currentAgent (some ctx) =
           some (rule.conditions.get ⟨i, hi⟩).2) ∧
    (∀ (currentAgent : String) (rule : HandoffRule) (hne : rule.next ≠ []),
       assocLookup handoffRules currentAgent = some rule →
       getNextAgent currentAgent none = some (rule.next.head hne)) ∧
    (∀ (currentAgent : String) (rule : HandoffRule) (ctx : HContext)
       (hne : rule.next ≠ []),
       assocLookup handoffRules currentAgent = some rule →
       (∀ j (hj : j < rule.conditions.length),
         ctxGet ctx (rule.conditions.get ⟨j, hj⟩).1 = false) →
       getNextAgent currentAgent (some ctx) = some (rule.next.head hne)) := by
  refine ⟨?_, ?_, ?_, ?_⟩
  · intro currentAgent context h
    simp [getNextAgent, h]
  · intro currentAgent rule ctx hlook hctx i hi htrue hprev
    have hfind := findCondition_first ctx rule.conditions i hi htrue hprev
    simp [getNextAgent, hlook, isEmpty_false_of_ne_nil hctx, hfind]
  · intro currentAgent rule hne hlook
    simp [getNextAgent, hlook, List.head?_eq_head hne]
  · intro currentAgent rule ctx hne hlook hall
    have hfind := findCondition_none ctx rule.conditions hall
    cases hc : ctx.isEmpty <;>
      simp [getNextAgent, hlook, hfind, hc, List.head?_eq_head hne]

/-- Witness for C7: a truthy `needs_stats` flag routes `Data_Analyzer` to
`Statistics_Analyst`; with no context, `Code_Executor` hands off to its
default `Data_Analyzer`; an unknown agent yields no preference. -/
theorem getNextAgent_spec_witness :
    getNextAgent "Data_Analyzer" (some [("needs_stats", true)]) =
      some "Statistics_Analyst" ∧
    getNextAgent "Code_Executor" none = some "Data_Analyzer" ∧
    getNextAgent "Unknown_Agent" none = none := by
  refine ⟨?_, ?_, ?_⟩
  · have h := getNextAgent_spec.2.1 "Data_Analyzer"
      { next := ["Code_Executor"],
        conditions := [("has_code", "Code_Executor"),
                       ("needs_stats", "Statistics_Analyst"),
                       ("needs_viz", "Visualization_Specialist")] }
      [("needs_stats", true)] rfl (by decide) 1 (by decide) (by decide)
      (by decide)
    exact h.trans (by decide)
  · have h := getNextAgent_spec.2.2.1 "Code_Executor"
      { next := ["Data_Analyzer"],
        conditions := [("error", "Data_Analyzer"), ("success", "Data_Analyzer")] }
      (by decide) rfl
    exact h.trans (by decide)
  · exact getNextAgent_spec.1 "Unknown_Agent" none rfl

lemma findAgentByName_mem (n : String) :
    ∀ (agents : List Agent) (a : Agent),
      findAgentByName agents n = some a → a ∈ agents ∧ a.name = n := by
  intro agents
  induction agents with
  | nil => intro a h; simp [findAgentByName] at h
  | cons b rest ih =>
    intro a h
    by_cases hb : b.name = n
    · rw [findAgentByName, if_pos hb] at h
      cases h
      exact ⟨List.mem_cons_self b rest, hb⟩
    · rw [findAgentByName, if_neg hb] at h
      obtain ⟨hmem, hname⟩ := ih a h
      exact ⟨List.mem_cons_of_mem b hmem, hname⟩

lemma findAgentByName_not_found (n : String) :
    ∀ (agents : List Agent), (∀ a ∈ agents, a.name ≠ n) →
      findAgentByName agents n = none := by
  intro agents
  induction agents with
  | nil => intro; rfl
  | cons b rest ih =>
    intro h
    rw [findAgentByName, if_neg (h b (List.mem_cons_self b rest))]
    exact ih fun a ha => h a (List.mem_cons_of_mem b ha)

/-- C4: for every agent message whose lower-cased content contains a
visualization keyword, `CustomAgentSelector.select_next_agent` returns the
first roster agent named `Visualization_Specialist` — visualization is the
first topic in the fixed check order, so it wins regardless of other keywords
or their position in the text; with no matching topic, or with the matched
topic's target name absent from the roster, the selector returns `None`, and
a non-agent message also yields `None` — never an exception. -/
theorem customSelector_spec :
    (∀ (agents : List Agent) (msg : Message), msg.isAgent = true →
       anyKeyword (strLower msg.content) vizKeywords = true →
       CustomAgentSelector.selectNextAgent agents msg =
         findAgentByName agents "Visualization_Specialist" ∧
       ∀ a, findAgentByName agents "Visualization_Specialist" = some a →
         a ∈ agents ∧ a.name = "Visualization_Specialist") ∧
    (∀ (agents : List Agent) (msg : Message), msg.isAgent = true →
       anyKeyword (strLower msg.content) vizKeywords = false →
       anyKeyword (strLower msg.content) statsKeywords = false →
       anyKeyword (strLower msg.content) codeExecKeywords = false →
       anyKeyword (strLower msg.content) dataAnalyzerKeywords = false →
       CustomAgentSelector.selectNextAgent agents msg = none) ∧
    (∀ (agents : List Agent) (msg : Message), msg.isAgent = true →
       anyKeyword (strLower msg.content) vizKeywords = true →
       (∀ a ∈ agents, a.name ≠ "Visualization_Specialist") →
       CustomAgentSelector.selectNextAgent agents msg = none) ∧
    (∀ (agents : List Agent) (msg : Message), msg.isAgent = false →
       CustomAgentSelector.selectNextAgent agents msg = none) := by
  refine ⟨?_, ?_, ?_, ?_⟩
  · intro agents msg hA hV
    constructor
    · simp [CustomAgentSelector.selectNextAgent, hA, hV]
    · intro a ha
      exact findAgentByName_mem "Visualization_Specialist" agents a ha
  · intro agents msg hA h1 h2 h3 h4
    simp [CustomAgentSelector.selectNextAgent, hA, h1, h2, h3, h4]
  · intro agents msg hA hV habsent
    simp [CustomAgentSelector.selectNextAgent, hA, hV,
      findAgentByName_not_found "Visualization_Specialist" agents habsent]
  · intro agents msg hA
    simp [CustomAgentSelector.selectNextAgent, hA]

/-- Witness for C4: a message containing `plot` (and also the lower-priority
keyword `data`) selects the visualization specialist when present; a message
with no keyword yields no preference; a visualization request with the
specialist absent from the roster yields no preference. -/
theorem customSelector_spec_witness :
    CustomAgentSelector.selectNextAgent [⟨"Visualization_Specialist"⟩]
        ⟨true, "Please PLOT the data"⟩ =
      findAgentByName [⟨"Visualization_Specialist"⟩] "Visualization_Specialist" ∧
    CustomAgentSelector.selectNextAgent [⟨"Data_Analyzer"⟩] ⟨true, "hello!"⟩ = none ∧
    CustomAgentSelector.selectNextAgent [⟨"Data_Analyzer"⟩] ⟨true, "plot it"⟩ = none := by
  refine ⟨?_, ?_, ?_⟩
  · exact (customSelector_spec.1 [⟨"Visualization_Specialist"⟩]
      ⟨true, "Please PLOT the data"⟩ rfl (by decide)).1
  · exact customSelector_spec.2.1 [⟨"Data_Analyzer"⟩] ⟨true, "hello!"⟩ rfl
      (by decide) (by decide) (by decide) (by decide)
  · exact customSelector_spec.2.2.1 [⟨"Data_Analyzer"⟩] ⟨true, "plot it"⟩ rfl
      (by decide) (by decide)

lemma err_call_eq (maxErrors c : Nat) (m : List Message) :
    ErrorTermination.call maxErrors c m =
      (callMatches m && decide (maxErrors ≤ c + 1),
       if callMatches m then c + 1 else c) := by
  cases hm : m.getLast? with
  | none => simp [ErrorTermination.call, callMatches, hm]
  | some last =>
    cases hA : last.isAgent
    · simp [ErrorTermination.call, callMatches, hm, hA]
    · cases hK : anyKeyword (strLower last.content) errorKeywords
      · simp [ErrorTermination.call, callMatches, hm, hA, hK]
      · by_cases hle : maxErrors ≤ c + 1 <;>
          simp [ErrorTermination.call, callMatches, hm, hA, hK, hle]

lemma matchCount_cons (m : List Message) (ms : List (List Message)) :
    matchCount (m :: ms) = (if callMatches m then 1 else 0) + matchCount ms := by
  simp only [matchCount, List.filter_cons]
  cases hc : callMatches m <;> simp [Nat.add_comm]

lemma matchCount_append (xs ys : List (List Message)) :
    matchCount (xs ++ ys) = matchCount xs + matchCount ys := by
  simp [matchCount, List.filter_append]

lemma matchCount_take_mono (inputs : List (List Message)) {k l : Nat} (h : k ≤ l) :
    matchCount (inputs.take k) ≤ matchCount (inputs.take l) := by
  calc matchCount (inputs.take k)
      ≤ matchCount (inputs.take k) + matchCount ((inputs.drop k).take (l - k)) :=
        Nat.le_add_right _ _
    _ = matchCount (inputs.take (k + (l - k))) := by
        rw [List.take_add, matchCount_append]
    _ = matchCount (inputs.take l) := by rw [Nat.add_sub_cancel' h]

lemma errTrace_getElem? (maxErrors : Nat) (inputs : List (List Message)) :
    ∀ (c k : Nat),
      (errTrace maxErrors c inputs)[k]? =
        (inputs[k]?).map fun m =>
          callMatches m && decide (maxErrors ≤ c + matchCount (inputs.take (k + 1))) := by
  induction inputs with
  | nil => intro c k; simp [errTrace]
  | cons m ms ih =>
    intro c k
    have hc2 : (ErrorTermination.call maxErrors c m).2 =
        c + (if callMatches m then 1 else 0) := by
      rw [err_call_eq]; cases callMatches m <;> simp
    cases k with
    | zero =>
      simp only [errTrace, List.getElem?_cons_zero, List.take_succ_cons,
        List.take_zero, Option.map_some', err_call_eq]
      cases hcm : callMatches m <;> simp [hcm, matchCount_cons, matchCount]
    | succ k =>
      simp only [errTrace, List.getElem?_cons_succ, List.take_succ_cons,
        matchCount_cons]
      rw [ih, hc2]
      simp [Nat.add_assoc]

lemma errCountAfter_eq (maxErrors : Nat) (inputs : List (List Message)) :
    ∀ c, errCountAfter maxErrors c inputs = c + matchCount inputs := by
  induction inputs with
  | nil => intro c; simp [errCountAfter, matchCount]
  | cons m ms ih =>
    intro c
    have hc2 : (ErrorTermination.call maxErrors c m).2 =
        c + (if callMatches m then 1 else 0) := by
      rw [err_call_eq]; cases callMatches m <;> simp
    rw [errCountAfter, ih, hc2, matchCount_cons]
    omega

/-- C2: over any sequence of calls to one `ErrorTermination` instance, the
call at which the number of counter-incrementing calls (latest message is an
agent message whose lower-cased content contains an error keyword, not
necessarily on consecutive calls) reaches `max_errors` returns true, every
call before it returns false, and each matching call increments the internal
counter by exactly one. -/
theorem errorTermination_spec (maxErrors : Nat) (inputs : List (List Message))
    (j : Nat) (hj : j < inputs.length)
    (hmatch : callMatches (inputs.get ⟨j, hj⟩) = true)
    (hreach : matchCount (inputs.take (j + 1)) = maxErrors) :
    (errTrace maxErrors 0 inputs)[j]? = some true ∧
    (∀ i, i < j → (errTrace maxErrors 0 inputs)[i]? = some false) ∧
    (∀ (c : Nat) (m : List Message),
      (ErrorTermination.call maxErrors c m).2 =
        if callMatches m then c + 1 else c) := by
  have hm : callMatches inputs[j] = true := hmatch
  have htake : matchCount (inputs.take (j + 1)) = matchCount (inputs.take j) + 1 := by
    rw [List.take_succ, List.getElem?_eq_getElem hj, matchCount_append]
    simp [matchCount, List.filter, hm]
  refine ⟨?_, ?_, ?_⟩
  · rw [errTrace_getElem? maxErrors inputs 0 j, List.getElem?_eq_getElem hj]
    simp [hm, hreach]
  · intro i hij
    have hi : i < inputs.length := Nat.lt_trans hij hj
    have hmono : matchCount (inputs.take (i + 1)) ≤ matchCount (inputs.take j) :=
      matchCount_take_mono inputs hij
    rw [errTrace_getElem? maxErrors inputs 0 i, List.getElem?_eq_getElem hi]
    have hdec : decide (maxErrors ≤ 0 + matchCount (inputs.take (i + 1))) = false := by
      simp only [decide_eq_false_iff_not]
      omega
    rw [Option.map_some', hdec, Bool.and_false]
  · intro c m
    rw [err_call_eq]

/-- Witness for C2 with `max_errors = 2`: two non-consecutive error messages
with a clean call in between — true exactly when the second error arrives,
false before. -/
theorem errorTermination_spec_witness :
    (errTrace 2 0 [[⟨true, "an error here"⟩], [⟨true, "all good"⟩],
        [⟨true, "it failed"⟩]])[2]? = some true ∧
    (errTrace 2 0 [[⟨true, "an error here"⟩], [⟨true, "all good"⟩],
        [⟨true, "it failed"⟩]])[0]? = some false := by
  have h := errorTermination_spec 2
    [[⟨true, "an error here"⟩], [⟨true, "all good"⟩], [⟨true, "it failed"⟩]]
    2 (by decide) (by decide) (by decide)
  exact ⟨h.1, h.2.1 0 (by decide)⟩

/-- C10: the `error_count` of one `ErrorTermination` instance never
decreases — per call and across any sequence of calls — and the condition
does not latch: after a call has returned true, a later call whose input
does not match (latest message missing, not an agent message, or free of
error keywords) returns false again. -/
theorem errorTermination_invariants :
    (∀ (maxErrors c : Nat) (m : List Message),
       c ≤ (ErrorTermination.call maxErrors c m).2) ∧
    (∀ (maxErrors : Nat) (inputs : List (List Message)) (k l : Nat), k ≤ l →
       errCountAfter maxErrors 0 (inputs.take k) ≤
         errCountAfter maxErrors 0 (inputs.take l)) ∧
    (∀ (maxErrors : Nat) (inputs : List (List Message)) (j k : Nat)
       (hk : k < inputs.length),
       (errTrace maxErrors 0 inputs)[j]? = some true → j < k →
       callMatches (inputs.get ⟨k, hk⟩) = false →
       (errTrace maxErrors 0 inputs)[k]? = some false) := by
  refine ⟨?_, ?_, ?_⟩
  · intro maxErrors c m
    rw [err_call_eq]
    cases callMatches m <;> simp
  · intro maxErrors inputs k l hkl
    rw [errCountAfter_eq, errCountAfter_eq]
    exact Nat.add_le_add_left (matchCount_take_mono inputs hkl) 0
  · intro maxErrors inputs j k hk _ _ hnomatch
    have hm : callMatches inputs[k] = false := hnomatch
    rw [errTrace_getElem? maxErrors inputs 0 k, List.getElem?_eq_getElem hk]
    rw [Option.map_some', hm, Bool.false_and]

/-- Witness for C10: after the first call returns true (`max_errors = 1`),
a following keyword-free call returns false again. -/
theorem errorTermination_invariants_witness :
    0 ≤ (ErrorTermination.call 1 0 [⟨true, "error"⟩]).2 ∧
    errCountAfter 1 0 ([[⟨true, "error"⟩], [⟨true, "fine"⟩]].take 1) ≤
      errCountAfter 1 0 ([[⟨true, "error"⟩], [⟨true, "fine"⟩]].take 2) ∧
    (errTrace 1 0 [[⟨true, "error"⟩], [⟨true, "fine"⟩]])[1]? = some false := by
  refine ⟨errorTermination_invariants.1 1 0 [⟨true, "error"⟩],
    errorTermination_invariants.2.1 1 [[⟨true, "error"⟩], [⟨true, "fine"⟩]] 1 2
      (by decide),
    errorTermination_invariants.2.2 1 [[⟨true, "error"⟩], [⟨true, "fine"⟩]] 0 1
      (by decide) (by decide) (by decide) (by decide)⟩

lemma stuck_call_window (T : Nat) (hT : 1 ≤ T) (pre window : List Message)
    (hlen : window.length = T) (hagent : ∀ m ∈ window, m.isAgent = true) :
    StuckConversationTermination.call T (pre ++ window) =
      match window.map (fun m => m.content) with
      | [] => none
      | c0 :: _ =>
        some (decide (T ≤
          ((window.map fun m => m.content).filter fun s => s = c0).length)) := by
  have hlen2 : (pre ++ window).length = pre.length + T := by
    rw [List.length_append, hlen]
  have hnlt : ¬ ((pre ++ window).length < T) := by omega
  have h0 : ¬ (T = 0) := by omega
  have hsub : (pre ++ window).length - T = pre.length := by omega
  have hfil : window.filter (fun m => m.isAgent) = window :=
    List.filter_eq_self.mpr hagent
  have hclen : T ≤ (window.map fun m => m.content).length := by
    rw [List.length_map, hlen]
  simp only [StuckConversationTermination.call, if_neg hnlt, if_neg h0, hsub,
    List.drop_left, hfil, if_pos hclen]

lemma map_content_all_eq {l : List Message} {c : String}
    (h : ∀ m ∈ l, m.content = c) :
    ((l.map fun m => m.content).filter fun s => s = c) = l.map fun m => m.content := by
  apply List.filter_eq_self.mpr
  intro s hs
  obtain ⟨m, hm, rfl⟩ := List.mem_map.mp hs
  simp [h m hm]

lemma map_content_none_eq {l : List Message} {c d : String} (hne : d ≠ c)
    (h : ∀ m ∈ l, m.content = c) :
    ((l.map fun m => m.content).filter fun s => s = d) = [] := by
  apply List.filter_eq_nil_iff.mpr
  intro s hs
  obtain ⟨m, hm, rfl⟩ := List.mem_map.mp hs
  simp [h m hm]
  exact fun habs => hne habs.symm

/-- C3: for `StuckConversationTermination` with repetition threshold `T`, a
history whose last `T` messages are agent messages with identical content
yields true; a history whose last `T` messages are `T - 1` identical agent
messages plus one agent message with different content (in any position of
the window) yields false; and a history of fewer than `T` messages yields
false. -/
theorem stuckTermination_spec :
    (∀ (T : Nat) (pre rep : List Message), 1 ≤ T → rep.length = T →
       (∀ m ∈ rep, m.isAgent = true) →
       (∀ m ∈ rep, ∀ m2 ∈ rep, m.content = m2.content) →
       StuckConversationTermination.call T (pre ++ rep) = some true) ∧
    (∀ (T : Nat) (pre w1 w2 : List Message) (dm : Message) (c : String), 2 ≤ T →
       w1.length + w2.length + 1 = T →
       (∀ m ∈ w1, m.isAgent = true ∧ m.content = c) →
       (∀ m ∈ w2, m.isAgent = true ∧ m.content = c) →
       dm.isAgent = true → dm.content ≠ c →
       StuckConversationTermination.call T (pre ++ (w1 ++ dm :: w2)) = some false) ∧
    (∀ (T : Nat) (messages : List Message), messages.length < T →
       StuckConversationTermination.call T messages = some false) := by
  refine ⟨?_, ?_, ?_⟩
  · intro T pre rep hT hlen hagent hsame
    obtain ⟨m0, rest, rfl⟩ : ∃ m0 rest, rep = m0 :: rest := by
      cases rep with
      | nil =>
        exfalso
        simp only [List.length_nil] at hlen
        omega
      | cons a as => exact ⟨a, as, rfl⟩
    rw [stuck_call_window T hT pre (m0 :: rest) hlen hagent]
    have hall : ∀ m ∈ m0 :: rest, m.content = m0.content :=
      fun m hm => hsame m hm m0 (List.mem_cons_self m0 rest)
    have hflt : ((m0.content :: rest.map fun m => m.content).filter
        fun s => s = m0.content) = m0.content :: rest.map fun m => m.content :=
      List.filter_eq_self.mpr (by
        intro s hs
        rcases List.mem_cons.mp hs with rfl | hs2
        · simp
        · obtain ⟨m, hm, rfl⟩ := List.mem_map.mp hs2
          simp [hall m (List.mem_cons_of_mem m0 hm)])
    simp only [List.map_cons, hflt, List.length_map, List.length_cons,
      Option.some.injEq, decide_eq_true_eq]
    simp only [List.length_cons] at hlen
    omega
  · intro T pre w1 w2 dm c hT hlen hw1 hw2 hdm hne
    have hwlen : (w1 ++ dm :: w2).length = T := by
      simp only [List.length_append, List.length_cons]
      omega
    have hwagent : ∀ m ∈ w1 ++ dm :: w2, m.isAgent = true := by
      intro m hm
      rcases List.mem_append.mp hm with h1 | h2
      · exact (hw1 m h1).1
      · rcases List.mem_cons.mp h2 with rfl | h3
        · exact hdm
        · exact (hw2 m h3).1
    rw [stuck_call_window T (by omega) pre (w1 ++ dm :: w2) hwlen hwagent]
    cases w1 with
    | nil =>
      have h2 : ((w2.map fun m => m.content).filter fun s => s = dm.content) = [] :=
        map_content_none_eq hne fun m hm => (hw2 m hm).2
      simp only [List.nil_append, List.map_cons, List.filter_cons, h2]
      simp only [decide_True, if_true, List.length_cons, List.length_nil,
        Option.some.injEq, decide_eq_false_iff_not]
      omega
    | cons m0 w1r =>
      have hc0 : m0.content = c := (hw1 m0 (List.mem_cons_self m0 w1r)).2
      have h1 : ((w1r.map fun m => m.content).filter fun s => s = m0.content) =
          w1r.map fun m => m.content :=
        map_content_all_eq fun m hm =>
          ((hw1 m (List.mem_cons_of_mem m0 hm)).2).trans hc0.symm
      have h2 : ((w2.map fun m => m.content).filter fun s => s = m0.content) =
          w2.map fun m => m.content :=
        map_content_all_eq fun m hm => ((hw2 m hm).2).trans hc0.symm
      have hdmne : ¬ (dm.content = m0.content) := fun habs => hne (habs.trans hc0)
      have hlen1 : w1r.length + w2.length + 2 = T := by
        have := hlen
        simp only [List.length_cons] at this
        omega
      simp only [List.cons_append, List.map_cons, List.map_append,
        List.filter_cons, List.filter_append, h1, h2, hdmne]
      simp only [decide_True, decide_False, Bool.false_eq_true, if_true,
        if_false, List.length_cons, List.length_append, List.length_map,
        Option.some.injEq, decide_eq_false_iff_not]
      omega
  · intro T messages hlt
    simp only [StuckConversationTermination.call, if_pos hlt]

/-- Witness for C3 at threshold 3: three identical agent messages stick;
two identical plus one different in the last three do not; a two-message
history does not. -/
theorem stuckTermination_spec_witness :
    StuckConversationTermination.call 3
        [⟨true, "x"⟩, ⟨true, "x"⟩, ⟨true, "x"⟩] = some true ∧
    StuckConversationTermination.call 3
        [⟨true, "x"⟩, ⟨true, "y"⟩, ⟨true, "x"⟩, ⟨true, "x"⟩] = some false ∧
    StuckConversationTermination.call 3 [⟨true, "x"⟩, ⟨true, "x"⟩] = some false := by
  refine ⟨?_, ?_, ?_⟩
  · exact stuckTermination_spec.1 3 [] [⟨true, "x"⟩, ⟨true, "x"⟩, ⟨true, "x"⟩]
      (by decide) (by decide) (by decide) (by decide)
  · exact stuckTermination_spec.2.1 3 [⟨true, "x"⟩] [] [⟨true, "x"⟩, ⟨true, "x"⟩]
      ⟨true, "y"⟩ "x" (by decide) (by decide) (by decide) (by decide) rfl
      (by decide)
  · exact stuckTermination_spec.2.2 3 [⟨true, "x"⟩, ⟨true, "x"⟩] (by decide)

end DataWise
